import Mathlib

/-!
Shallow embedding of the bookkeeping / reporting core of the accounting
application (source: `src/unnamed/part_002` for reports, `src/unnamed/part_003`
for invoice totals, `src/youreka/src/components/modules/Dashboard.tsx` for the
dashboard summary).

Modelling conventions:
* Monetary amounts are modelled as `ℚ` (the source uses JS floating-point
  numbers; the claims are exact arithmetic identities, which we settle over
  the rationals).
* ISO dates are `String`s; the source compares them with `>=`, `<=` and
  `localeCompare`, which on ISO `YYYY-MM-DD` strings is lexicographic
  comparison by code point.  We define that comparison directly on the
  underlying character lists (`lexLe`) so that it is kernel-computable.
* The JS `Map<string, number>` of balances is observed in the relevant code
  only through `get` (reports iterate the account list, never the map), so it
  is modelled as a function `String → Option ℚ`; `mapSet` overrides one key.
* `Array.prototype.sort` is stable (ES2019); it is modelled by a stable
  insertion sort.
-/

/-- Lexicographic comparison of character lists by code point, the order
`localeCompare` / `<=` induces on ISO date strings. -/
def lexLe : List Char → List Char → Bool
  | [], _ => true
  | _ :: _, [] => false
  | a :: as, b :: bs =>
    if a.toNat < b.toNat then true
    else if b.toNat < a.toNat then false
    else lexLe as bs

/-- Compares date strings, `a <= b`, as the source's lexicographic string compare. -/
def dateLe (a b : String) : Bool := lexLe a.data b.data

/-- Account types of the data model (`type ∈ {Asset, Liability, Equity,
Revenue, Expense}`). -/
inductive AccountType
  | Asset
  | Liability
  | Equity
  | Revenue
  | Expense
deriving DecidableEq, Repr

/-- The `Account` record (fields used by the computation layer). -/
structure Account where
  id : String
  name : String
  code : String
  type : AccountType
  isSystem : Bool
deriving DecidableEq, Repr

/-- A `JournalLine`: one posting of a journal entry. -/
structure JournalLine where
  id : String
  accountId : String
  description : Option String
  debit : ℚ
  credit : ℚ
deriving DecidableEq, Repr

/-- A `JournalEntry`: a dated, referenced batch of lines. -/
structure JournalEntry where
  id : String
  date : String
  reference : String
  narration : Option String
  lines : List JournalLine
deriving DecidableEq, Repr

/-- The balance map, observed only through `get`: `none` models a key that is
absent from the JS `Map`. -/
def BalanceMap : Type := String → Option ℚ

/-- Models `map.set(k, v)`. -/
def mapSet (m : BalanceMap) (k : String) (v : ℚ) : BalanceMap :=
  fun x => if x = k then some v else m x

/-- Models `map.get(k)` (`none` = `undefined`). -/
def mapGet (m : BalanceMap) (k : String) : Option ℚ := m k

/-- One step of the inner loop of `computeAccountBalances`:
`map.set(line.accountId, (map.get(line.accountId) ?? 0) + line.debit - line.credit)`. -/
def applyLine (m : BalanceMap) (l : JournalLine) : BalanceMap :=
  mapSet m l.accountId ((mapGet m l.accountId).getD 0 + l.debit - l.credit)

/-- The outer loop body of `computeAccountBalances`: fold one entry's lines. -/
def applyEntry (m : BalanceMap) (e : JournalEntry) : BalanceMap :=
  e.lines.foldl applyLine m

/-- Embeds `computeAccountBalances` (src/unnamed/part_002, lines 271-279): fold all
entries' lines into a per-account signed balance map. -/
def computeAccountBalances (entries : List JournalEntry) : BalanceMap :=
  entries.foldl applyEntry (fun _ => none)

/-- The date-range filter used by `buildReports` and `buildLedgerEntries`:
`entry.date >= fromDate && entry.date <= toDate`. -/
def filterByDateRange (entries : List JournalEntry) (fromDate toDate : String) :
    List JournalEntry :=
  entries.filter (fun e => dateLe fromDate e.date && dateLe e.date toDate)

/-- A `{account, amount}` row of the P&L / Balance Sheet. -/
structure ReportLine where
  account : Account
  amount : ℚ
deriving DecidableEq, Repr

/-- A Trial Balance row. -/
structure TrialBalanceLine where
  account : Account
  debit : ℚ
  credit : ℚ
deriving DecidableEq, Repr

/-- The P&L report object built by `buildReports`. -/
structure PnLReport where
  periodStart : String
  periodEnd : String
  revenueTotal : ℚ
  expenseTotal : ℚ
  grossProfit : ℚ
  netProfit : ℚ
  revenueAccounts : List ReportLine
  expenseAccounts : List ReportLine
deriving DecidableEq, Repr

/-- The `totals` sub-object of the Balance Sheet. -/
structure BalanceSheetTotals where
  assetTotal : ℚ
  liabilityTotal : ℚ
  equityTotal : ℚ
deriving DecidableEq, Repr

/-- The Balance Sheet report object built by `buildReports`. -/
structure BalanceSheetReport where
  periodEnd : String
  assets : List ReportLine
  liabilities : List ReportLine
  equity : List ReportLine
  totals : BalanceSheetTotals
deriving DecidableEq, Repr

/-- The Trial Balance report object built by `buildReports`. -/
structure TrialBalanceReport where
  periodStart : String
  periodEnd : String
  lines : List TrialBalanceLine
  totalDebit : ℚ
  totalCredit : ℚ
deriving DecidableEq, Repr

/-- The payload returned by `buildReports`. -/
structure Reports where
  pnl : PnLReport
  balanceSheet : BalanceSheetReport
  trialBalance : TrialBalanceReport
deriving DecidableEq, Repr

/-- Models `list.reduce((acc, item) => acc + item.amount, 0)`. -/
def sumAmounts (xs : List ReportLine) : ℚ :=
  xs.foldl (fun acc item => acc + item.amount) 0

/-- Embeds `buildReports` (src/unnamed/part_002, lines 181-268): filter entries to the
date range, aggregate balances, and derive the P&L, Balance Sheet and Trial
Balance view objects. -/
def buildReports (entries : List JournalEntry) (accounts : List Account)
    (fromDate toDate : String) : Reports :=
  let filteredEntries := filterByDateRange entries fromDate toDate
  let balances := computeAccountBalances filteredEntries
  let pnlRevenues :=
    (accounts.filter (fun a => a.type = AccountType.Revenue)).map
      (fun account => ReportLine.mk account (-((mapGet balances account.id).getD 0)))
  let pnlExpenses :=
    (accounts.filter (fun a => a.type = AccountType.Expense)).map
      (fun account => ReportLine.mk account ((mapGet balances account.id).getD 0))
  let revenueTotal := sumAmounts pnlRevenues
  let expenseTotal := sumAmounts pnlExpenses
  let assets :=
    (accounts.filter (fun a => a.type = AccountType.Asset)).map
      (fun account => ReportLine.mk account ((mapGet balances account.id).getD 0))
  let liabilities :=
    (accounts.filter (fun a => a.type = AccountType.Liability)).map
      (fun account => ReportLine.mk account (-((mapGet balances account.id).getD 0)))
  let equity :=
    (accounts.filter (fun a => a.type = AccountType.Equity)).map
      (fun account => ReportLine.mk account (-((mapGet balances account.id).getD 0)))
  let trialBalanceLines :=
    accounts.map (fun account =>
      let balance := (mapGet balances account.id).getD 0
      TrialBalanceLine.mk account
        (if balance > 0 then balance else 0)
        (if balance < 0 then -balance else 0))
  { pnl :=
      { periodStart := fromDate
        periodEnd := toDate
        revenueTotal := revenueTotal
        expenseTotal := expenseTotal
        grossProfit := revenueTotal - expenseTotal
        netProfit := revenueTotal - expenseTotal
        revenueAccounts := pnlRevenues
        expenseAccounts := pnlExpenses }
    balanceSheet :=
      { periodEnd := toDate
        assets := assets
        liabilities := liabilities
        equity := equity
        totals :=
          { assetTotal := sumAmounts assets
            liabilityTotal := sumAmounts liabilities
            equityTotal := sumAmounts equity } }
    trialBalance :=
      { periodStart := fromDate
        periodEnd := toDate
        lines := trialBalanceLines
        totalDebit := trialBalanceLines.foldl (fun acc line => acc + line.debit) 0
        totalCredit := trialBalanceLines.foldl (fun acc line => acc + line.credit) 0 } }

/-- A row of the per-account ledger view. -/
structure LedgerEntry where
  accountId : String
  accountName : String
  date : String
  description : Option String
  reference : String
  debit : ℚ
  credit : ℚ
  balance : ℚ
deriving DecidableEq, Repr

/-- Stable insertion into a date-sorted entry list: an element goes before the
first element whose date is not smaller, so elements with equal dates keep
their original relative order (JS `sort` is stable). -/
def insertByDate (e : JournalEntry) : List JournalEntry → List JournalEntry
  | [] => [e]
  | f :: fs => if dateLe e.date f.date then e :: f :: fs else f :: insertByDate e fs

/-- Stable sort ascending by `entry.date` (`.sort((a, b) => a.date.localeCompare(b.date))`). -/
def sortEntriesByDate : List JournalEntry → List JournalEntry
  | [] => []
  | e :: es => insertByDate e (sortEntriesByDate es)

/-- The `(entry, line)` pairs the ledger loop iterates: for each entry in
order, its lines with `line.accountId === account.id` in order. -/
def matchedLines (account : Account) (es : List JournalEntry) :
    List (JournalEntry × JournalLine) :=
  es.flatMap (fun e =>
    (e.lines.filter (fun l => l.accountId = account.id)).map (fun l => (e, l)))

/-- The ledger accumulation loop: `balance += line.debit - line.credit` then
push a row carrying the updated balance. -/
def ledgerRows (account : Account) (balance : ℚ) :
    List (JournalEntry × JournalLine) → List LedgerEntry
  | [] => []
  | (e, l) :: rest =>
    let b := balance + l.debit - l.credit
    { accountId := account.id
      accountName := account.name
      date := e.date
      description := l.description.or e.narration
      reference := e.reference
      debit := l.debit
      credit := l.credit
      balance := b } :: ledgerRows account b rest

/-- Embeds `buildLedgerEntries` (src/unnamed/part_002, lines 281-308): date-filter,
stable-sort by date, then walk the account's lines keeping a running balance. -/
def buildLedgerEntries (entries : List JournalEntry) (account : Account)
    (fromDate toDate : String) : List LedgerEntry :=
  let relevantEntries := sortEntriesByDate (filterByDateRange entries fromDate toDate)
  ledgerRows account 0 (matchedLines account relevantEntries)

/-- The `summary` record of the dashboard metrics. -/
structure DashboardSummary where
  revenue : ℚ
  expense : ℚ
  profit : ℚ
  margin : ℚ
deriving DecidableEq, Repr

/-- Stable insertion into a date-descending entry list (comparator
`b.date.localeCompare(a.date)`). -/
def insertByDateDesc (e : JournalEntry) : List JournalEntry → List JournalEntry
  | [] => [e]
  | f :: fs => if dateLe f.date e.date then e :: f :: fs else f :: insertByDateDesc e fs

/-- Stable sort descending by `entry.date`. -/
def sortEntriesByDateDesc : List JournalEntry → List JournalEntry
  | [] => []
  | e :: es => insertByDateDesc e (sortEntriesByDateDesc es)

/-- The per-entry revenue/expense accumulation of `buildDashboardMetrics`: for
each line, `credit - debit` into revenue if the account is a Revenue account,
`debit - credit` into expense if it is an Expense account. -/
def entryRevenueExpense (revenueIds expenseIds : List String)
    (e : JournalEntry) : ℚ × ℚ :=
  e.lines.foldl
    (fun d l =>
      ((if l.accountId ∈ revenueIds then d.1 + (l.credit - l.debit) else d.1),
       (if l.accountId ∈ expenseIds then d.2 + (l.debit - l.credit) else d.2)))
    (0, 0)

/-- The `summary` part of `buildDashboardMetrics`
(src/youreka/src/components/modules/Dashboard.tsx, lines 354-419): total
revenue/expense over all entries and `margin = revenue === 0 ? 0 :
(profit / revenue) * 100`.  The monthly chart buckets and `recentEntries`,
which do not feed the summary, are not modelled. -/
def buildDashboardSummary (entries : List JournalEntry)
    (accounts : List Account) : DashboardSummary :=
  let revenueIds :=
    (accounts.filter (fun a => a.type = AccountType.Revenue)).map (fun a => a.id)
  let expenseIds :=
    (accounts.filter (fun a => a.type = AccountType.Expense)).map (fun a => a.id)
  let sortedEntries := sortEntriesByDateDesc entries
  let totals :=
    sortedEntries.foldl
      (fun (acc : ℚ × ℚ) e =>
        let d := entryRevenueExpense revenueIds expenseIds e
        (acc.1 + d.1, acc.2 + d.2))
      (0, 0)
  let revenue := totals.1
  let expense := totals.2
  let profit := revenue - expense
  { revenue := revenue
    expense := expense
    profit := profit
    margin := if revenue = 0 then 0 else profit / revenue * 100 }

/-- Inventory item (fields used by the invoice totals calculator). -/
structure InventoryItem where
  id : String
  sku : String
  name : String
  unitPrice : ℚ
  quantity : ℚ
deriving DecidableEq, Repr

/-- A draft invoice line after `parseFloat` of its text fields.  `unitPrice =
none` models an empty unit-price field, which falls back to the inventory
item's price (`parseFloat(line.unitPrice || inventory?.unitPrice ?? 0)`). -/
structure DraftInvoiceLine where
  id : String
  inventoryId : String
  quantity : ℚ
  unitPrice : Option ℚ
  discount : ℚ
  taxRate : ℚ
deriving DecidableEq, Repr

/-- Embeds `calculateLineTotal` (src/unnamed/part_003, lines 575-581). -/
def calculateLineTotal (quantity rate discount taxRate : ℚ) : ℚ :=
  let base := quantity * rate
  let discountAmount := base * (discount / 100)
  let taxable := base - discountAmount
  let taxAmount := taxable * (taxRate / 100)
  taxable + taxAmount

/-- The aggregate object returned by `computeTotals`. -/
structure InvoiceTotals where
  subtotal : ℚ
  discountTotal : ℚ
  taxTotal : ℚ
  total : ℚ
deriving DecidableEq, Repr

/-- The effective rate of a line: its own unit price, or the referenced
inventory item's unit price, or 0. -/
def lineRate (line : DraftInvoiceLine) (items : List InventoryItem) : ℚ :=
  match line.unitPrice with
  | some r => r
  | none => ((items.find? (fun item => item.id = line.inventoryId)).map
      (fun item => item.unitPrice)).getD 0

/-- One line's fold step of `computeTotals` on the accumulator
`(subtotal, discountTotal, taxTotal)`; zero-quantity lines are skipped
(`if (!quantity) continue`). -/
def computeTotalsStep (items : List InventoryItem) (t : ℚ × ℚ × ℚ)
    (line : DraftInvoiceLine) : ℚ × ℚ × ℚ :=
  if line.quantity = 0 then t
  else
    let rate := lineRate line items
    let base := line.quantity * rate
    let discountAmount := base * (line.discount / 100)
    let taxable := base - discountAmount
    let taxAmount := taxable * (line.taxRate / 100)
    (t.1 + taxable, t.2.1 + discountAmount, t.2.2 + taxAmount)

/-- Embeds `computeTotals` (src/unnamed/part_003, lines 583-608). -/
def computeTotals (lines : List DraftInvoiceLine) (items : List InventoryItem) :
    InvoiceTotals :=
  let acc := lines.foldl (computeTotalsStep items) (0, 0, 0)
  { subtotal := acc.1
    discountTotal := acc.2.1
    taxTotal := acc.2.2
    total := acc.1 + acc.2.2 }

/-! ### Specification-side helper definitions -/

/-- The signed contribution of one line: `debit - credit`. -/
def lineDelta (l : JournalLine) : ℚ := l.debit - l.credit

/-- The signed contribution of one entry to account `a`: the sum of
`debit - credit` over the entry's lines referencing `a`. -/
def entryDelta (a : String) (e : JournalEntry) : ℚ :=
  ((e.lines.filter (fun l => l.accountId = a)).map lineDelta).sum

/-- The aggregated signed balance of account `a` over a list of entries. -/
def accountDelta (a : String) (es : List JournalEntry) : ℚ :=
  (es.map (entryDelta a)).sum

/-- Holds when `a` is referenced by some line of some entry of `es`. -/
def occursIn (a : String) (es : List JournalEntry) : Prop :=
  ∃ e ∈ es, ∃ l ∈ e.lines, l.accountId = a

instance (a : String) (es : List JournalEntry) : Decidable (occursIn a es) := by
  unfold occursIn
  infer_instance

/-- Drop from every entry the lines whose `accountId` is not in the current
account list (used to state that orphaned lines do not affect the reports). -/
def stripOrphanLines (entries : List JournalEntry) (accounts : List Account) :
    List JournalEntry :=
  entries.map (fun e =>
    { e with lines := e.lines.filter (fun l => l.accountId ∈ accounts.map Account.id) })

/-! ### Order properties of the date comparison -/

theorem lexLe_refl : ∀ l : List Char, lexLe l l = true := by
  intro l
  induction l with
  | nil => rfl
  | cons a as ih => simp [lexLe, ih]

theorem lexLe_total : ∀ l m : List Char, lexLe l m = true ∨ lexLe m l = true := by
  intro l
  induction l with
  | nil => intro m; left; rfl
  | cons a as ih =>
    intro m
    cases m with
    | nil => right; rfl
    | cons b bs =>
      rcases Nat.lt_trichotomy a.toNat b.toNat with h | h | h
      · left; simp [lexLe, h]
      · have h2 : ¬ a.toNat < b.toNat := by omega
        have h3 : ¬ b.toNat < a.toNat := by omega
        rcases ih bs with hl | hr
        · left; simp [lexLe, h2, h3, hl]
        · right; simp [lexLe, h2, h3, hr]
      · right; simp [lexLe, h]

theorem lexLe_trans :
    ∀ l m n : List Char, lexLe l m = true → lexLe m n = true → lexLe l n = true := by
  intro l
  induction l with
  | nil => intro m n _ _; rfl
  | cons a as ih =>
    intro m n h1 h2
    cases m with
    | nil => simp [lexLe] at h1
    | cons b bs =>
      cases n with
      | nil => simp [lexLe] at h2
      | cons c cs =>
        by_cases hab : a.toNat < b.toNat
        · by_cases hbc : b.toNat < c.toNat
          · have : a.toNat < c.toNat := by omega
            simp [lexLe, this]
          · by_cases hcb : c.toNat < b.toNat
            · simp [lexLe, hbc, hcb] at h2
            · have : a.toNat < c.toNat := by omega
              simp [lexLe, this]
        · by_cases hba : b.toNat < a.toNat
          · simp [lexLe, hab, hba] at h1
          · have hab2 : a.toNat = b.toNat := by omega
            by_cases hbc : b.toNat < c.toNat
            · have : a.toNat < c.toNat := by omega
              simp [lexLe, this]
            · by_cases hcb : c.toNat < b.toNat
              · simp [lexLe, hbc, hcb] at h2
              · have hac : ¬ a.toNat < c.toNat := by omega
                have hca : ¬ c.toNat < a.toNat := by omega
                simp only [lexLe, if_neg hab, if_neg hba] at h1
                simp only [lexLe, if_neg hbc, if_neg hcb] at h2
                simp only [lexLe, if_neg hac, if_neg hca]
                exact ih bs cs h1 h2

theorem dateLe_refl (a : String) : dateLe a a = true := lexLe_refl a.data

theorem dateLe_total (a b : String) : dateLe a b = true ∨ dateLe b a = true :=
  lexLe_total a.data b.data

theorem dateLe_trans {a b c : String} (h1 : dateLe a b = true)
    (h2 : dateLe b c = true) : dateLe a c = true :=
  lexLe_trans a.data b.data c.data h1 h2

/-! ### Generic fold/sum helpers -/

theorem foldl_add_eq_add_sum {α : Type} (f : α → ℚ) :
    ∀ (l : List α) (c : ℚ), l.foldl (fun acc x => acc + f x) c = c + (l.map f).sum := by
  intro l
  induction l with
  | nil => intro c; simp
  | cons x xs ih => intro c; simp [List.foldl_cons, ih (c + f x), add_assoc]

theorem sumAmounts_eq_sum (xs : List ReportLine) :
    sumAmounts xs = (xs.map (fun r => r.amount)).sum := by
  have h := foldl_add_eq_add_sum (fun r : ReportLine => r.amount) xs 0
  simpa [sumAmounts] using h

theorem sum_map_add {α : Type} (f g : α → ℚ) :
    ∀ l : List α, (l.map (fun x => f x + g x)).sum = (l.map f).sum + (l.map g).sum := by
  intro l
  induction l with
  | nil => simp
  | cons x xs ih => simp [ih]; ring

/-! ### Characterization of the balance aggregator -/

theorem mapGet_mapSet_self (m : BalanceMap) (k : String) (v : ℚ) :
    mapGet (mapSet m k v) k = some v := by
  simp [mapGet, mapSet]

theorem mapGet_mapSet_ne (m : BalanceMap) (k x : String) (v : ℚ) (h : x ≠ k) :
    mapGet (mapSet m k v) x = mapGet m x := by
  simp [mapGet, mapSet, h]

theorem occursIn_nil (a : String) : ¬ occursIn a [] := by
  simp [occursIn]

theorem occursIn_cons (a : String) (e : JournalEntry) (es : List JournalEntry) :
    occursIn a (e :: es) ↔ (∃ l ∈ e.lines, l.accountId = a) ∨ occursIn a es := by
  simp [occursIn]

theorem accountDelta_nil (a : String) : accountDelta a [] = 0 := by
  simp [accountDelta]

theorem accountDelta_cons (a : String) (e : JournalEntry) (es : List JournalEntry) :
    accountDelta a (e :: es) = entryDelta a e + accountDelta a es := by
  simp [accountDelta]

theorem entryDelta_eq_zero_of_no_line (a : String) (e : JournalEntry)
    (h : ¬ ∃ l ∈ e.lines, l.accountId = a) : entryDelta a e = 0 := by
  have hf : e.lines.filter (fun l => l.accountId = a) = [] := by
    rw [List.filter_eq_nil_iff]
    intro l hl
    simp only [decide_eq_true_eq]
    exact fun hacc => h ⟨l, hl, hacc⟩
  simp [entryDelta, hf]

theorem accountDelta_eq_zero_of_not_occurs (a : String) (es : List JournalEntry)
    (h : ¬ occursIn a es) : accountDelta a es = 0 := by
  induction es with
  | nil => simp [accountDelta]
  | cons e es ih =>
    rw [occursIn_cons] at h
    have h1 : ¬ ∃ l ∈ e.lines, l.accountId = a := fun hx => h (Or.inl hx)
    have h2 : ¬ occursIn a es := fun hx => h (Or.inr hx)
    rw [accountDelta_cons, ih h2, entryDelta_eq_zero_of_no_line a e h1, add_zero]

theorem foldl_applyLine_get (a : String) :
    ∀ (ls : List JournalLine) (m : BalanceMap),
      mapGet (ls.foldl applyLine m) a =
        if ∃ l ∈ ls, l.accountId = a then
          some ((mapGet m a).getD 0 +
            ((ls.filter (fun l => l.accountId = a)).map lineDelta).sum)
        else mapGet m a := by
  intro ls
  induction ls with
  | nil => intro m; simp
  | cons l ls ih =>
    intro m
    rw [List.foldl_cons, ih (applyLine m l)]
    by_cases hl : l.accountId = a
    · have hset : mapGet (applyLine m l) a =
          some ((mapGet m a).getD 0 + l.debit - l.credit) := by
        rw [applyLine, hl, mapGet_mapSet_self]
      have hcond : ∃ x ∈ l :: ls, x.accountId = a := ⟨l, List.mem_cons_self l ls, hl⟩
      have hfilter : (l :: ls).filter (fun x => x.accountId = a) =
          l :: ls.filter (fun x => x.accountId = a) := by
        simp [List.filter_cons, hl]
      by_cases hls : ∃ x ∈ ls, x.accountId = a
      · rw [if_pos hls, if_pos hcond, hset, hfilter]
        simp only [List.map_cons, List.sum_cons, Option.getD_some, lineDelta]
        ring_nf
      · rw [if_neg hls, if_pos hcond, hset, hfilter]
        have hnil : ls.filter (fun x => x.accountId = a) = [] := by
          rw [List.filter_eq_nil_iff]
          intro x hx
          simp only [decide_eq_true_eq]
          exact fun hacc => hls ⟨x, hx, hacc⟩
        simp only [hnil, List.map_cons, List.map_nil, List.sum_cons, List.sum_nil,
          lineDelta]
        ring_nf
    · have hset : mapGet (applyLine m l) a = mapGet m a := by
        rw [applyLine]
        exact mapGet_mapSet_ne m l.accountId a _ (fun h => hl h.symm)
      have hcond : (∃ x ∈ l :: ls, x.accountId = a) ↔ ∃ x ∈ ls, x.accountId = a := by
        simp only [List.mem_cons]
        constructor
        · rintro ⟨x, hx | hx, hacc⟩
          · exact absurd (hx ▸ hacc) hl
          · exact ⟨x, hx, hacc⟩
        · rintro ⟨x, hx, hacc⟩
          exact ⟨x, Or.inr hx, hacc⟩
      have hfilter : (l :: ls).filter (fun x => x.accountId = a) =
          ls.filter (fun x => x.accountId = a) := by
        simp [List.filter_cons, hl]
      rw [hset, hfilter]
      by_cases hls : ∃ x ∈ ls, x.accountId = a
      · rw [if_pos hls, if_pos (hcond.mpr hls)]
      · rw [if_neg hls, if_neg (fun h => hls (hcond.mp h))]

theorem foldl_applyEntry_get (a : String) :
    ∀ (es : List JournalEntry) (m : BalanceMap),
      mapGet (es.foldl applyEntry m) a =
        if occursIn a es then some ((mapGet m a).getD 0 + accountDelta a es)
        else mapGet m a := by
  intro es
  induction es with
  | nil => intro m; simp [occursIn_nil]
  | cons e es ih =>
    intro m
    rw [List.foldl_cons, ih (applyEntry m e)]
    have hentry := foldl_applyLine_get a e.lines m
    by_cases he : ∃ l ∈ e.lines, l.accountId = a
    · have hset : mapGet (applyEntry m e) a =
          some ((mapGet m a).getD 0 + entryDelta a e) := by
        rw [applyEntry, hentry, if_pos he, entryDelta]
      have hcond : occursIn a (e :: es) := (occursIn_cons a e es).mpr (Or.inl he)
      by_cases hes : occursIn a es
      · rw [if_pos hes, if_pos hcond, hset, accountDelta_cons]
        simp only [Option.getD_some]
        ring_nf
      · rw [if_neg hes, if_pos hcond, hset, accountDelta_cons,
          accountDelta_eq_zero_of_not_occurs a es hes, add_zero]
    · have hset : mapGet (applyEntry m e) a = mapGet m a := by
        rw [applyEntry, hentry, if_neg he]
      have hez : entryDelta a e = 0 := entryDelta_eq_zero_of_no_line a e he
      rw [hset]
      by_cases hes : occursIn a es
      · rw [if_pos hes, if_pos ((occursIn_cons a e es).mpr (Or.inr hes)),
          accountDelta_cons, hez, zero_add]
      · rw [if_neg hes, if_neg (fun h => by
          rcases (occursIn_cons a e es).mp h with h1 | h2
          · exact he h1
          · exact hes h2)]

theorem computeAccountBalances_get (es : List JournalEntry) (a : String) :
    mapGet (computeAccountBalances es) a =
      if occursIn a es then some (accountDelta a es) else none := by
  rw [computeAccountBalances, foldl_applyEntry_get]
  by_cases h : occursIn a es
  · rw [if_pos h, if_pos h]
    simp [mapGet]
  · rw [if_neg h, if_neg h]
    rfl

theorem computeAccountBalances_getD (es : List JournalEntry) (a : String) :
    (mapGet (computeAccountBalances es) a).getD 0 = accountDelta a es := by
  rw [computeAccountBalances_get]
  by_cases h : occursIn a es
  · rw [if_pos h, Option.getD_some]
  · rw [if_neg h, Option.getD_none, accountDelta_eq_zero_of_not_occurs a es h]

/-! ### Ledger rows: positional content, running balance, last balance -/

theorem ledgerRows_eq_nil_iff (acct : Account) (b : ℚ)
    (ps : List (JournalEntry × JournalLine)) :
    ledgerRows acct b ps = [] ↔ ps = [] := by
  cases ps with
  | nil => simp [ledgerRows]
  | cons p rest =>
    obtain ⟨e, l⟩ := p
    simp [ledgerRows]

theorem ledgerRows_map_dc (acct : Account) :
    ∀ (ps : List (JournalEntry × JournalLine)) (b : ℚ),
      (ledgerRows acct b ps).map (fun r => (r.date, r.debit, r.credit)) =
        ps.map (fun p => (p.1.date, p.2.debit, p.2.credit)) := by
  intro ps
  induction ps with
  | nil => intro b; rfl
  | cons p rest ih =>
    intro b
    obtain ⟨e, l⟩ := p
    simp [ledgerRows, ih]

theorem ledgerRows_accountId (acct : Account) :
    ∀ (ps : List (JournalEntry × JournalLine)) (b : ℚ) (r : LedgerEntry),
      r ∈ ledgerRows acct b ps → r.accountId = acct.id := by
  intro ps
  induction ps with
  | nil => intro b r hr; simp [ledgerRows] at hr
  | cons p rest ih =>
    intro b r hr
    obtain ⟨e, l⟩ := p
    simp only [ledgerRows, List.mem_cons] at hr
    rcases hr with hr | hr
    · rw [hr]
    · exact ih _ r hr

theorem ledgerRows_head?_balance (acct : Account)
    (ps : List (JournalEntry × JournalLine)) (b : ℚ) (r : LedgerEntry)
    (h : (ledgerRows acct b ps).head? = some r) :
    r.balance = b + r.debit - r.credit := by
  cases ps with
  | nil => simp [ledgerRows] at h
  | cons p rest =>
    obtain ⟨e, l⟩ := p
    simp only [ledgerRows, List.head?_cons, Option.some.injEq] at h
    rw [← h]

theorem ledgerRows_chain (acct : Account) :
    ∀ (ps : List (JournalEntry × JournalLine)) (b : ℚ),
      List.Chain' (fun r s => s.balance = r.balance + s.debit - s.credit)
        (ledgerRows acct b ps) := by
  intro ps
  induction ps with
  | nil => intro b; simp [ledgerRows]
  | cons p rest ih =>
    intro b
    obtain ⟨e, l⟩ := p
    simp only [ledgerRows]
    rw [List.chain'_cons']
    constructor
    · intro s hs
      have hb := ledgerRows_head?_balance acct rest (b + l.debit - l.credit) s
      rw [hb (Option.mem_def.mp hs)]
    · exact ih (b + l.debit - l.credit)

theorem ledgerRows_getLast?_balance (acct : Account) :
    ∀ (ps : List (JournalEntry × JournalLine)) (b : ℚ), ps ≠ [] →
      ((ledgerRows acct b ps).getLast?).map (fun r => r.balance) =
        some (b + (ps.map (fun p => lineDelta p.2)).sum) := by
  intro ps
  induction ps with
  | nil => intro b h; exact absurd rfl h
  | cons p rest ih =>
    intro b _
    obtain ⟨e, l⟩ := p
    cases rest with
    | nil =>
      simp [ledgerRows, lineDelta]
      ring
    | cons q qs =>
      have hne : (q :: qs : List (JournalEntry × JournalLine)) ≠ [] := by simp
      have step := ih (b + l.debit - l.credit) hne
      have hcons : ledgerRows acct b ((e, l) :: q :: qs) =
          ({ accountId := acct.id, accountName := acct.name, date := e.date,
             description := l.description.or e.narration, reference := e.reference,
             debit := l.debit, credit := l.credit,
             balance := b + l.debit - l.credit } : LedgerEntry) ::
            ledgerRows acct (b + l.debit - l.credit) (q :: qs) := rfl
      rw [hcons]
      have htail : ledgerRows acct (b + l.debit - l.credit) (q :: qs) ≠ [] := by
        rw [Ne, ledgerRows_eq_nil_iff]
        simp
      obtain ⟨t, ts, ht⟩ : ∃ t ts, ledgerRows acct (b + l.debit - l.credit) (q :: qs) = t :: ts := by
        cases hx : ledgerRows acct (b + l.debit - l.credit) (q :: qs) with
        | nil => exact absurd hx htail
        | cons t ts => exact ⟨t, ts, rfl⟩
      rw [ht, List.getLast?_cons_cons]
      rw [ht] at step
      rw [step]
      simp only [List.map_cons, List.sum_cons, Option.some.injEq, lineDelta]
      ring

/-! ### The stable date sort: permutation and sortedness -/

theorem pairwise_of_forall_rel {α : Type} {R : α → α → Prop} (h : ∀ x y, R x y) :
    ∀ l : List α, l.Pairwise R := by
  intro l
  induction l with
  | nil => exact List.Pairwise.nil
  | cons x xs ih => exact List.Pairwise.cons (fun y _ => h x y) ih

theorem insertByDate_perm (e : JournalEntry) :
    ∀ l : List JournalEntry, List.Perm (insertByDate e l) (e :: l) := by
  intro l
  induction l with
  | nil => simp [insertByDate]
  | cons f fs ih =>
    simp only [insertByDate]
    by_cases h : dateLe e.date f.date = true
    · rw [if_pos h]
    · rw [if_neg h]
      exact (ih.cons f).trans (List.Perm.swap e f fs)

theorem sortEntriesByDate_perm :
    ∀ es : List JournalEntry, List.Perm (sortEntriesByDate es) es := by
  intro es
  induction es with
  | nil => rfl
  | cons e es ih =>
    simp only [sortEntriesByDate]
    exact (insertByDate_perm e (sortEntriesByDate es)).trans (ih.cons e)

theorem pairwise_insertByDate (e : JournalEntry) :
    ∀ l : List JournalEntry,
      l.Pairwise (fun x y => dateLe x.date y.date = true) →
      (insertByDate e l).Pairwise (fun x y => dateLe x.date y.date = true) := by
  intro l
  induction l with
  | nil => intro _; simp [insertByDate]
  | cons f fs ih =>
    intro hl
    rw [List.pairwise_cons] at hl
    obtain ⟨hf, hfs⟩ := hl
    simp only [insertByDate]
    by_cases h : dateLe e.date f.date = true
    · rw [if_pos h]
      refine List.Pairwise.cons ?_ (List.Pairwise.cons hf hfs)
      intro y hy
      rcases List.mem_cons.mp hy with hy | hy
      · rw [hy]; exact h
      · exact dateLe_trans h (hf y hy)
    · rw [if_neg h]
      refine List.Pairwise.cons ?_ (ih hfs)
      intro y hy
      have hy2 : y ∈ e :: fs := (insertByDate_perm e fs).subset hy
      rcases List.mem_cons.mp hy2 with hy2 | hy2
      · rw [hy2]
        rcases dateLe_total f.date e.date with ht | ht
        · exact ht
        · exact absurd ht h
      · exact hf y hy2

theorem sortEntriesByDate_pairwise (es : List JournalEntry) :
    (sortEntriesByDate es).Pairwise (fun x y => dateLe x.date y.date = true) := by
  induction es with
  | nil => exact List.Pairwise.nil
  | cons e es ih => exact pairwise_insertByDate e (sortEntriesByDate es) ih

/-! ### Matched ledger lines: membership, order, permutation, sum -/

theorem matchedLines_cons (acct : Account) (e : JournalEntry)
    (es : List JournalEntry) :
    matchedLines acct (e :: es) =
      ((e.lines.filter (fun l => l.accountId = acct.id)).map (fun l => (e, l))) ++
        matchedLines acct es := by
  simp [matchedLines]

theorem mem_matchedLines {acct : Account} {es : List JournalEntry}
    {p : JournalEntry × JournalLine} (h : p ∈ matchedLines acct es) :
    p.1 ∈ es ∧ p.2 ∈ p.1.lines ∧ p.2.accountId = acct.id := by
  simp only [matchedLines, List.mem_flatMap, List.mem_map, List.mem_filter,
    decide_eq_true_eq] at h
  obtain ⟨e, he, l, ⟨hl, hacc⟩, hp⟩ := h
  rw [← hp]
  exact ⟨he, hl, hacc⟩

theorem matchedLines_perm (acct : Account) {es fs : List JournalEntry}
    (h : List.Perm es fs) :
    List.Perm (matchedLines acct es) (matchedLines acct fs) :=
  h.flatMap_right _

theorem matchedLines_pairwise (acct : Account) (es : List JournalEntry)
    (h : es.Pairwise (fun x y => dateLe x.date y.date = true)) :
    (matchedLines acct es).Pairwise
      (fun p q => dateLe p.1.date q.1.date = true) := by
  induction es with
  | nil => exact List.Pairwise.nil
  | cons e es ih =>
    rw [List.pairwise_cons] at h
    obtain ⟨he, hes⟩ := h
    rw [matchedLines_cons, List.pairwise_append]
    refine ⟨?_, ih hes, ?_⟩
    · rw [List.pairwise_map]
      refine pairwise_of_forall_rel ?_ _
      intro x y
      exact dateLe_refl e.date
    · intro p hp q hq
      have hp1 : p.1 = e := by
        rcases List.mem_map.mp hp with ⟨l, _, hl⟩
        rw [← hl]
      have hq1 := (mem_matchedLines hq).1
      rw [hp1]
      exact he q.1 hq1

theorem matchedLines_sum (acct : Account) :
    ∀ es : List JournalEntry,
      ((matchedLines acct es).map (fun p => lineDelta p.2)).sum =
        accountDelta acct.id es := by
  intro es
  induction es with
  | nil => simp [matchedLines, accountDelta]
  | cons e es ih =>
    rw [matchedLines_cons, List.map_append, List.sum_append, ih,
      accountDelta_cons, List.map_map]
    rfl

theorem occursIn_of_matchedLines_ne_nil {acct : Account} {es : List JournalEntry}
    (h : matchedLines acct es ≠ []) : occursIn acct.id es := by
  cases hx : matchedLines acct es with
  | nil => exact absurd hx h
  | cons p ps =>
    have hp : p ∈ matchedLines acct es := by rw [hx]; exact List.mem_cons_self p ps
    obtain ⟨h1, h2, h3⟩ := mem_matchedLines hp
    exact ⟨p.1, h1, p.2, h2, h3⟩

/-! ### Per-line invoice amounts (the spec's formulas, which the code inlines) -/

/-- The spec's `base = quantity × unitPrice` for a line (with the unit-price fallback). -/
def lineBase (line : DraftInvoiceLine) (items : List InventoryItem) : ℚ :=
  line.quantity * lineRate line items

/-- The spec's `discountAmount = base × discount/100`. -/
def lineDiscountAmount (line : DraftInvoiceLine) (items : List InventoryItem) : ℚ :=
  lineBase line items * (line.discount / 100)

/-- The spec's `taxable = base − discountAmount`. -/
def lineTaxable (line : DraftInvoiceLine) (items : List InventoryItem) : ℚ :=
  lineBase line items - lineDiscountAmount line items

/-- The spec's `taxAmount = taxable × taxRate/100`. -/
def lineTaxAmount (line : DraftInvoiceLine) (items : List InventoryItem) : ℚ :=
  lineTaxable line items * (line.taxRate / 100)

theorem computeTotals_foldl (items : List InventoryItem) :
    ∀ (lines : List DraftInvoiceLine) (t : ℚ × ℚ × ℚ),
      lines.foldl (computeTotalsStep items) t =
        (t.1 + ((lines.filter (fun l => l.quantity ≠ 0)).map
            (fun l => lineTaxable l items)).sum,
         t.2.1 + ((lines.filter (fun l => l.quantity ≠ 0)).map
            (fun l => lineDiscountAmount l items)).sum,
         t.2.2 + ((lines.filter (fun l => l.quantity ≠ 0)).map
            (fun l => lineTaxAmount l items)).sum) := by
  intro lines
  induction lines with
  | nil => intro t; simp
  | cons l ls ih =>
    intro t
    rw [List.foldl_cons, ih (computeTotalsStep items t l)]
    by_cases hq : l.quantity = 0
    · have hstep : computeTotalsStep items t l = t := by
        rw [computeTotalsStep, if_pos hq]
      have hfilter : (l :: ls).filter (fun x => x.quantity ≠ 0) =
          ls.filter (fun x => x.quantity ≠ 0) := by
        simp [List.filter_cons, hq]
      rw [hstep, hfilter]
    · have hstep : computeTotalsStep items t l =
          (t.1 + lineTaxable l items, t.2.1 + lineDiscountAmount l items,
           t.2.2 + lineTaxAmount l items) := by
        rw [computeTotalsStep, if_neg hq]
        simp only [lineTaxable, lineDiscountAmount, lineTaxAmount, lineBase, lineRate]
      have hfilter : (l :: ls).filter (fun x => x.quantity ≠ 0) =
          l :: ls.filter (fun x => x.quantity ≠ 0) := by
        simp [List.filter_cons, hq]
      rw [hstep, hfilter]
      simp only [List.map_cons, List.sum_cons, Prod.mk.injEq]
      refine ⟨by ring, by ring, by ring⟩

theorem computeTotals_eq (lines : List DraftInvoiceLine)
    (items : List InventoryItem) :
    computeTotals lines items =
      { subtotal := ((lines.filter (fun l => l.quantity ≠ 0)).map
            (fun l => lineTaxable l items)).sum
        discountTotal := ((lines.filter (fun l => l.quantity ≠ 0)).map
            (fun l => lineDiscountAmount l items)).sum
        taxTotal := ((lines.filter (fun l => l.quantity ≠ 0)).map
            (fun l => lineTaxAmount l items)).sum
        total := ((lines.filter (fun l => l.quantity ≠ 0)).map
            (fun l => lineTaxable l items)).sum +
          ((lines.filter (fun l => l.quantity ≠ 0)).map
            (fun l => lineTaxAmount l items)).sum } := by
  rw [computeTotals, computeTotals_foldl items lines (0, 0, 0)]
  simp

/-! ### Sums of line deltas over a nodup covering id list -/

theorem sum_map_sub {α : Type} (f g : α → ℚ) :
    ∀ l : List α, (l.map (fun x => f x - g x)).sum = (l.map f).sum - (l.map g).sum := by
  intro l
  induction l with
  | nil => simp
  | cons x xs ih => simp [ih]; ring

theorem sum_map_ite_insert (x : String) (c : ℚ) (f : String → ℚ) :
    ∀ ids : List String, ids.Nodup → x ∈ ids →
      (ids.map (fun a => if x = a then c + f a else f a)).sum = c + (ids.map f).sum := by
  intro ids
  induction ids with
  | nil => intro _ hmem; simp at hmem
  | cons i ids ih =>
    intro hnodup hmem
    rw [List.nodup_cons] at hnodup
    obtain ⟨hi, hids⟩ := hnodup
    rcases List.mem_cons.mp hmem with hx | hx
    · subst hx
      have htail : ids.map (fun a => if x = a then c + f a else f a) = ids.map f := by
        apply List.map_congr_left
        intro a ha
        rw [if_neg (fun h => hi (show x ∈ ids by rw [h]; exact ha))]
      simp only [List.map_cons, List.sum_cons, if_pos rfl, if_true, htail]
      ring
    · have hxi : ¬ x = i := fun h => hi (h ▸ hx)
      simp only [List.map_cons, List.sum_cons, if_neg hxi, ih hids hx]
      ring

theorem sum_entryDelta_lines (ids : List String) (hnodup : ids.Nodup) :
    ∀ ls : List JournalLine, (∀ l ∈ ls, l.accountId ∈ ids) →
      (ids.map (fun a => ((ls.filter (fun l => l.accountId = a)).map lineDelta).sum)).sum
        = (ls.map lineDelta).sum := by
  intro ls
  induction ls with
  | nil => intro _; simp
  | cons l ls ih =>
    intro hcover
    have hmap : ids.map (fun a =>
        (((l :: ls).filter (fun x => x.accountId = a)).map lineDelta).sum) =
        ids.map (fun a => if l.accountId = a then
          lineDelta l + ((ls.filter (fun x => x.accountId = a)).map lineDelta).sum
        else ((ls.filter (fun x => x.accountId = a)).map lineDelta).sum) := by
      apply List.map_congr_left
      intro a _
      by_cases hl : l.accountId = a
      · rw [if_pos hl]
        simp [List.filter_cons, hl]
      · rw [if_neg hl]
        simp [List.filter_cons, hl]
    rw [hmap, sum_map_ite_insert l.accountId (lineDelta l) _ ids hnodup
      (hcover l (List.mem_cons_self l ls)),
      ih (fun x hx => hcover x (List.mem_cons_of_mem l hx))]
    simp

theorem sum_accountDelta (ids : List String) (hnodup : ids.Nodup) :
    ∀ es : List JournalEntry,
      (∀ e ∈ es, ∀ l ∈ e.lines, l.accountId ∈ ids) →
      (ids.map (fun a => accountDelta a es)).sum =
        (es.map (fun e => (e.lines.map lineDelta).sum)).sum := by
  intro es
  induction es with
  | nil =>
    intro _
    simp [accountDelta]
  | cons e es ih =>
    intro hcover
    have hmap : ids.map (fun a => accountDelta a (e :: es)) =
        ids.map (fun a => entryDelta a e + accountDelta a es) := by
      apply List.map_congr_left
      intro a _
      exact accountDelta_cons a e es
    rw [hmap, sum_map_add, ih (fun x hx => hcover x (List.mem_cons_of_mem e hx))]
    have hlines := sum_entryDelta_lines ids hnodup e.lines
      (hcover e (List.mem_cons_self e es))
    simp only [entryDelta]
    rw [hlines]
    simp

/-! ### buildReports components expressed through aggregated balances -/

theorem pos_part_eq_max (b : ℚ) : (if b > 0 then b else 0) = max b 0 := by
  rcases le_or_lt b 0 with h | h
  · rw [if_neg (not_lt.mpr h), max_eq_right h]
  · rw [if_pos h, max_eq_left h.le]

theorem neg_part_eq_max (b : ℚ) : (if b < 0 then -b else 0) = max (-b) 0 := by
  rcases le_or_lt 0 b with h | h
  · rw [if_neg (not_lt.mpr h), max_eq_right (neg_nonpos.mpr h)]
  · rw [if_pos h, max_eq_left (neg_nonneg.mpr h.le)]

theorem max_sub_max_neg (b : ℚ) : max b 0 - max (-b) 0 = b := by
  rcases le_total b 0 with h | h
  · rw [max_eq_right h, max_eq_left (neg_nonneg.mpr h)]
    ring
  · rw [max_eq_left h, max_eq_right (neg_nonpos.mpr h)]
    ring

theorem buildReports_pnl_revenueAccounts (entries : List JournalEntry)
    (accounts : List Account) (fromDate toDate : String) :
    (buildReports entries accounts fromDate toDate).pnl.revenueAccounts =
      (accounts.filter (fun a => a.type = AccountType.Revenue)).map
        (fun a => ReportLine.mk a
          (-(accountDelta a.id (filterByDateRange entries fromDate toDate)))) := by
  simp only [buildReports]
  apply List.map_congr_left
  intro a _
  rw [computeAccountBalances_getD]

theorem buildReports_pnl_expenseAccounts (entries : List JournalEntry)
    (accounts : List Account) (fromDate toDate : String) :
    (buildReports entries accounts fromDate toDate).pnl.expenseAccounts =
      (accounts.filter (fun a => a.type = AccountType.Expense)).map
        (fun a => ReportLine.mk a
          (accountDelta a.id (filterByDateRange entries fromDate toDate))) := by
  simp only [buildReports]
  apply List.map_congr_left
  intro a _
  rw [computeAccountBalances_getD]

theorem buildReports_balanceSheet_assets (entries : List JournalEntry)
    (accounts : List Account) (fromDate toDate : String) :
    (buildReports entries accounts fromDate toDate).balanceSheet.assets =
      (accounts.filter (fun a => a.type = AccountType.Asset)).map
        (fun a => ReportLine.mk a
          (accountDelta a.id (filterByDateRange entries fromDate toDate))) := by
  simp only [buildReports]
  apply List.map_congr_left
  intro a _
  rw [computeAccountBalances_getD]

theorem buildReports_balanceSheet_liabilities (entries : List JournalEntry)
    (accounts : List Account) (fromDate toDate : String) :
    (buildReports entries accounts fromDate toDate).balanceSheet.liabilities =
      (accounts.filter (fun a => a.type = AccountType.Liability)).map
        (fun a => ReportLine.mk a
          (-(accountDelta a.id (filterByDateRange entries fromDate toDate)))) := by
  simp only [buildReports]
  apply List.map_congr_left
  intro a _
  rw [computeAccountBalances_getD]

theorem buildReports_balanceSheet_equity (entries : List JournalEntry)
    (accounts : List Account) (fromDate toDate : String) :
    (buildReports entries accounts fromDate toDate).balanceSheet.equity =
      (accounts.filter (fun a => a.type = AccountType.Equity)).map
        (fun a => ReportLine.mk a
          (-(accountDelta a.id (filterByDateRange entries fromDate toDate)))) := by
  simp only [buildReports]
  apply List.map_congr_left
  intro a _
  rw [computeAccountBalances_getD]

theorem buildReports_trialBalance_lines (entries : List JournalEntry)
    (accounts : List Account) (fromDate toDate : String) :
    (buildReports entries accounts fromDate toDate).trialBalance.lines =
      accounts.map (fun a =>
        TrialBalanceLine.mk a
          (max (accountDelta a.id (filterByDateRange entries fromDate toDate)) 0)
          (max (-(accountDelta a.id (filterByDateRange entries fromDate toDate))) 0)) := by
  simp only [buildReports]
  apply List.map_congr_left
  intro a _
  rw [computeAccountBalances_getD, pos_part_eq_max, neg_part_eq_max]

theorem trialBalance_totalDebit_eq_sum (entries : List JournalEntry)
    (accounts : List Account) (fromDate toDate : String) :
    (buildReports entries accounts fromDate toDate).trialBalance.totalDebit =
      (((buildReports entries accounts fromDate toDate).trialBalance.lines).map
        (fun l => l.debit)).sum := by
  have h := foldl_add_eq_add_sum (fun l : TrialBalanceLine => l.debit)
    ((buildReports entries accounts fromDate toDate).trialBalance.lines) 0
  simp only [zero_add] at h
  exact h

theorem trialBalance_totalCredit_eq_sum (entries : List JournalEntry)
    (accounts : List Account) (fromDate toDate : String) :
    (buildReports entries accounts fromDate toDate).trialBalance.totalCredit =
      (((buildReports entries accounts fromDate toDate).trialBalance.lines).map
        (fun l => l.credit)).sum := by
  have h := foldl_add_eq_add_sum (fun l : TrialBalanceLine => l.credit)
    ((buildReports entries accounts fromDate toDate).trialBalance.lines) 0
  simp only [zero_add] at h
  exact h

theorem trialBalance_total_sub (entries : List JournalEntry)
    (accounts : List Account) (fromDate toDate : String) :
    (buildReports entries accounts fromDate toDate).trialBalance.totalDebit -
      (buildReports entries accounts fromDate toDate).trialBalance.totalCredit =
      (accounts.map (fun a =>
        accountDelta a.id (filterByDateRange entries fromDate toDate))).sum := by
  rw [trialBalance_totalDebit_eq_sum, trialBalance_totalCredit_eq_sum,
    ← sum_map_sub, buildReports_trialBalance_lines, List.map_map]
  apply congrArg
  apply List.map_congr_left
  intro a _
  simp only [Function.comp_apply]
  exact max_sub_max_neg _

/-! ### Concrete fixtures for witnesses and counterexamples -/

/-- A Revenue account. -/
def acctSales : Account :=
  { id := "a-rev", name := "Sales", code := "4000",
    type := AccountType.Revenue, isSystem := false }

/-- An Asset account. -/
def acctCash : Account :=
  { id := "a-cash", name := "Cash", code := "1000",
    type := AccountType.Asset, isSystem := false }

/-- A balanced entry: Cash debited 100, Sales credited 100. -/
def entrySale : JournalEntry :=
  { id := "e1", date := "2024-03-05", reference := "JV-1", narration := none,
    lines :=
      [ { id := "l1", accountId := "a-cash", description := none, debit := 100, credit := 0 },
        { id := "l2", accountId := "a-rev", description := none, debit := 0, credit := 100 } ] }

/-- An Asset account with id "A". -/
def acctA : Account :=
  { id := "A", name := "Account A", code := "1",
    type := AccountType.Asset, isSystem := false }

/-- Entry dated d1 touching account A with (debit, credit) = (100, 0). -/
def entryD1 : JournalEntry :=
  { id := "e1", date := "2024-01-02", reference := "J1", narration := none,
    lines := [ { id := "l1", accountId := "A", description := none, debit := 100, credit := 0 } ] }

/-- Entry dated d2 touching account A with (debit, credit) = (0, 40). -/
def entryD2 : JournalEntry :=
  { id := "e2", date := "2024-01-03", reference := "J2", narration := none,
    lines := [ { id := "l2", accountId := "A", description := none, debit := 0, credit := 40 } ] }

/-- Entry dated d3 touching account A with (debit, credit) = (0, 10). -/
def entryD3 : JournalEntry :=
  { id := "e3", date := "2024-01-04", reference := "J3", narration := none,
    lines := [ { id := "l3", accountId := "A", description := none, debit := 0, credit := 10 } ] }

/-- An invoice draft line with quantity 2, unit price 50, 10% discount, 18% tax. -/
def invLine : DraftInvoiceLine :=
  { id := "il1", inventoryId := "item-1", quantity := 2, unitPrice := some 50,
    discount := 10, taxRate := 18 }

/-! ### Claims -/

/-- C2: `computeAccountBalances` maps every accountId that occurs in some line
to the sum of `debit - credit` over all lines referencing it across all
supplied entries, and leaves unreferenced accountIds absent from the map
(`none`).  Purity, determinism and totality hold by construction: the
embedding is a total Lean function of its input. -/
theorem computeAccountBalances_spec (entries : List JournalEntry) (a : String) :
    mapGet (computeAccountBalances entries) a =
      if occursIn a entries then some (accountDelta a entries) else none :=
  computeAccountBalances_get entries a

/-- C3: in the P&L over the date-filtered entries, Revenue accounts contribute
`-balance`, Expense accounts contribute `balance`, the totals are the sums of
those amounts, and grossProfit = netProfit = revenueTotal - expenseTotal;
concretely, one Revenue account credited 100 against one Asset account debited
100 gives revenueTotal = 100, assetTotal = 100, netProfit = 100. -/
theorem pnl_spec :
    (∀ (entries : List JournalEntry) (accounts : List Account) (fromDate toDate : String),
      (buildReports entries accounts fromDate toDate).pnl.revenueAccounts =
        (accounts.filter (fun a => a.type = AccountType.Revenue)).map
          (fun a => ReportLine.mk a
            (-(accountDelta a.id (filterByDateRange entries fromDate toDate)))) ∧
      (buildReports entries accounts fromDate toDate).pnl.expenseAccounts =
        (accounts.filter (fun a => a.type = AccountType.Expense)).map
          (fun a => ReportLine.mk a
            (accountDelta a.id (filterByDateRange entries fromDate toDate))) ∧
      (buildReports entries accounts fromDate toDate).pnl.revenueTotal =
        (((buildReports entries accounts fromDate toDate).pnl.revenueAccounts).map
          (fun r => r.amount)).sum ∧
      (buildReports entries accounts fromDate toDate).pnl.expenseTotal =
        (((buildReports entries accounts fromDate toDate).pnl.expenseAccounts).map
          (fun r => r.amount)).sum ∧
      (buildReports entries accounts fromDate toDate).pnl.grossProfit =
        (buildReports entries accounts fromDate toDate).pnl.revenueTotal -
          (buildReports entries accounts fromDate toDate).pnl.expenseTotal ∧
      (buildReports entries accounts fromDate toDate).pnl.netProfit =
        (buildReports entries accounts fromDate toDate).pnl.revenueTotal -
          (buildReports entries accounts fromDate toDate).pnl.expenseTotal) ∧
    (buildReports [entrySale] [acctSales, acctCash] "2024-01-01" "2024-12-31").pnl.revenueTotal
      = 100 ∧
    (buildReports [entrySale] [acctSales, acctCash]
      "2024-01-01" "2024-12-31").balanceSheet.totals.assetTotal = 100 ∧
    (buildReports [entrySale] [acctSales, acctCash] "2024-01-01" "2024-12-31").pnl.netProfit
      = 100 := by
  refine ⟨fun entries accounts fromDate toDate =>
    ⟨buildReports_pnl_revenueAccounts entries accounts fromDate toDate,
     buildReports_pnl_expenseAccounts entries accounts fromDate toDate,
     sumAmounts_eq_sum _, sumAmounts_eq_sum _, rfl, rfl⟩, ?_, ?_, ?_⟩
  · simp +decide [buildReports, filterByDateRange, computeAccountBalances, applyEntry,
      applyLine, mapGet, mapSet, sumAmounts, entrySale, acctSales, acctCash]
  · simp +decide [buildReports, filterByDateRange, computeAccountBalances, applyEntry,
      applyLine, mapGet, mapSet, sumAmounts, entrySale, acctSales, acctCash]
  · simp +decide [buildReports, filterByDateRange, computeAccountBalances, applyEntry,
      applyLine, mapGet, mapSet, sumAmounts, entrySale, acctSales, acctCash]

/-- C5: in the Balance Sheet, Asset accounts carry their raw aggregated
balance, Liability and Equity accounts carry the negated balance, and each
section total is the plain sum of its section's amounts. -/
theorem balanceSheet_spec (entries : List JournalEntry) (accounts : List Account)
    (fromDate toDate : String) :
    (buildReports entries accounts fromDate toDate).balanceSheet.assets =
      (accounts.filter (fun a => a.type = AccountType.Asset)).map
        (fun a => ReportLine.mk a
          (accountDelta a.id (filterByDateRange entries fromDate toDate))) ∧
    (buildReports entries accounts fromDate toDate).balanceSheet.liabilities =
      (accounts.filter (fun a => a.type = AccountType.Liability)).map
        (fun a => ReportLine.mk a
          (-(accountDelta a.id (filterByDateRange entries fromDate toDate)))) ∧
    (buildReports entries accounts fromDate toDate).balanceSheet.equity =
      (accounts.filter (fun a => a.type = AccountType.Equity)).map
        (fun a => ReportLine.mk a
          (-(accountDelta a.id (filterByDateRange entries fromDate toDate)))) ∧
    (buildReports entries accounts fromDate toDate).balanceSheet.totals.assetTotal =
      (((buildReports entries accounts fromDate toDate).balanceSheet.assets).map
        (fun r => r.amount)).sum ∧
    (buildReports entries accounts fromDate toDate).balanceSheet.totals.liabilityTotal =
      (((buildReports entries accounts fromDate toDate).balanceSheet.liabilities).map
        (fun r => r.amount)).sum ∧
    (buildReports entries accounts fromDate toDate).balanceSheet.totals.equityTotal =
      (((buildReports entries accounts fromDate toDate).balanceSheet.equity).map
        (fun r => r.amount)).sum :=
  ⟨buildReports_balanceSheet_assets entries accounts fromDate toDate,
   buildReports_balanceSheet_liabilities entries accounts fromDate toDate,
   buildReports_balanceSheet_equity entries accounts fromDate toDate,
   sumAmounts_eq_sum _, sumAmounts_eq_sum _, sumAmounts_eq_sum _⟩

/-- C8: the dashboard summary margin is `profit / revenue * 100`, special-cased
to exactly 0 whenever total revenue is 0; in particular the empty ledger (zero
revenue, zero expense) has margin 0.  In this rational-number model no NaN or
infinity exists; the guard makes the zero-revenue case an exact 0. -/
theorem dashboard_margin_spec :
    (∀ (entries : List JournalEntry) (accounts : List Account),
      (buildDashboardSummary entries accounts).margin =
        (if (buildDashboardSummary entries accounts).revenue = 0 then 0
         else (buildDashboardSummary entries accounts).profit /
           (buildDashboardSummary entries accounts).revenue * 100) ∧
      ((buildDashboardSummary entries accounts).revenue = 0 →
        (buildDashboardSummary entries accounts).margin = 0)) ∧
    (buildDashboardSummary [] []).revenue = 0 ∧
    (buildDashboardSummary [] []).expense = 0 ∧
    (buildDashboardSummary [] []).margin = 0 := by
  refine ⟨fun entries accounts => ⟨rfl, fun h => ?_⟩, rfl, rfl, rfl⟩
  show (if (buildDashboardSummary entries accounts).revenue = 0 then (0 : ℚ)
    else (buildDashboardSummary entries accounts).profit /
      (buildDashboardSummary entries accounts).revenue * 100) = 0
  rw [if_pos h]

/-- C8 witness: the zero-revenue guard instantiated on the empty ledger. -/
theorem dashboard_margin_spec_witness :
    (buildDashboardSummary [] []).margin = 0 :=
  (dashboard_margin_spec.1 [] []).2 rfl

/-- C1 counterexample: the claim quantifies over ANY set of journal entries
and ANY account list, but a single unbalanced entry (one line, debit 100,
no credit) yields a Trial Balance with totalDebit = 100 and totalCredit = 0,
so totalDebit = totalCredit does not always hold. -/
theorem trialBalance_totals_counterexample :
    ¬ ((buildReports [entryD1] [acctA] "2024-01-01" "2024-12-31").trialBalance.totalDebit =
       (buildReports [entryD1] [acctA] "2024-01-01" "2024-12-31").trialBalance.totalCredit) := by
  simp +decide [buildReports, filterByDateRange, computeAccountBalances, applyEntry,
    applyLine, mapGet, mapSet, sumAmounts, entryD1, acctA]

/-- C1 (amended): each Trial Balance line carries
`debit = max(balance, 0)` and `credit = max(-balance, 0)` computed from that
account's aggregated balance (unconditionally); and `totalDebit = totalCredit`
holds provided every entry individually balances (its lines' debit sum equals
their credit sum), every line's accountId appears in the account list, and the
account ids are distinct — the conditions the counterexamples violate. -/
theorem trialBalance_spec (entries : List JournalEntry) (accounts : List Account)
    (fromDate toDate : String) :
    ((buildReports entries accounts fromDate toDate).trialBalance.lines =
      accounts.map (fun a =>
        TrialBalanceLine.mk a
          (max (accountDelta a.id (filterByDateRange entries fromDate toDate)) 0)
          (max (-(accountDelta a.id (filterByDateRange entries fromDate toDate))) 0))) ∧
    ((∀ e ∈ entries,
        (e.lines.map (fun l => l.debit)).sum = (e.lines.map (fun l => l.credit)).sum) →
      (∀ e ∈ entries, ∀ l ∈ e.lines, l.accountId ∈ accounts.map Account.id) →
      (accounts.map Account.id).Nodup →
      (buildReports entries accounts fromDate toDate).trialBalance.totalDebit =
        (buildReports entries accounts fromDate toDate).trialBalance.totalCredit) := by
  refine ⟨buildReports_trialBalance_lines entries accounts fromDate toDate,
    fun hbal hcover hnodup => ?_⟩
  have hsub := trialBalance_total_sub entries accounts fromDate toDate
  have hzero : (accounts.map (fun a =>
      accountDelta a.id (filterByDateRange entries fromDate toDate))).sum = 0 := by
    have hmm : accounts.map (fun a =>
        accountDelta a.id (filterByDateRange entries fromDate toDate)) =
        (accounts.map Account.id).map (fun i =>
          accountDelta i (filterByDateRange entries fromDate toDate)) := by
      rw [List.map_map]
      rfl
    rw [hmm, sum_accountDelta (accounts.map Account.id) hnodup
      (filterByDateRange entries fromDate toDate)
      (fun e he l hl => hcover e (List.mem_of_mem_filter he) l hl)]
    have hall : (filterByDateRange entries fromDate toDate).map
        (fun e => (e.lines.map lineDelta).sum) =
        (filterByDateRange entries fromDate toDate).map (fun _ => (0 : ℚ)) := by
      apply List.map_congr_left
      intro e he
      have hd := hbal e (List.mem_of_mem_filter he)
      have hsplit : (e.lines.map lineDelta).sum =
          (e.lines.map (fun l => l.debit)).sum - (e.lines.map (fun l => l.credit)).sum := by
        rw [← sum_map_sub]
        rfl
      rw [hsplit, hd, sub_self]
    rw [hall]
    simp
  rw [hzero] at hsub
  linarith [hsub]

/-- C1 witness: on a balanced ledger (Cash 100 / Sales 100) with both accounts
present and distinct, the Trial Balance totals agree. -/
theorem trialBalance_spec_witness :
    (buildReports [entrySale] [acctSales, acctCash]
        "2024-01-01" "2024-12-31").trialBalance.totalDebit =
      (buildReports [entrySale] [acctSales, acctCash]
        "2024-01-01" "2024-12-31").trialBalance.totalCredit :=
  (trialBalance_spec [entrySale] [acctSales, acctCash] "2024-01-01" "2024-12-31").2
    (by
      intro e he
      rw [List.mem_singleton] at he
      subst he
      norm_num [entrySale])
    (by
      intro e he l hl
      rw [List.mem_singleton] at he
      subst he
      simp only [entrySale, List.mem_cons] at hl
      rcases hl with hl | hl | hl
      · subst hl; decide
      · subst hl; decide
      · simp at hl)
    (by decide)

/-- C10: every Trial Balance line has a nonnegative debit, a nonnegative
credit, and at least one of the two is exactly 0. -/
theorem trialBalance_line_signs (entries : List JournalEntry)
    (accounts : List Account) (fromDate toDate : String) (line : TrialBalanceLine)
    (h : line ∈ (buildReports entries accounts fromDate toDate).trialBalance.lines) :
    0 ≤ line.debit ∧ 0 ≤ line.credit ∧ (line.debit = 0 ∨ line.credit = 0) := by
  rw [buildReports_trialBalance_lines] at h
  obtain ⟨a, _, hline⟩ := List.mem_map.mp h
  rw [← hline]
  refine ⟨le_max_right _ _, le_max_right _ _, ?_⟩
  rcases le_total (accountDelta a.id (filterByDateRange entries fromDate toDate)) 0
    with hb | hb
  · left
    exact max_eq_right hb
  · right
    exact max_eq_right (neg_nonpos.mpr hb)

/-- C10 witness: the single Trial Balance line of the empty ledger over one
account satisfies the sign invariant. -/
theorem trialBalance_line_signs_witness :
    (TrialBalanceLine.mk acctA 0 0) ∈
      (buildReports [] [acctA] "2024-01-01" "2024-12-31").trialBalance.lines ∧
    (0 ≤ (TrialBalanceLine.mk acctA 0 0).debit ∧
      0 ≤ (TrialBalanceLine.mk acctA 0 0).credit ∧
      ((TrialBalanceLine.mk acctA 0 0).debit = 0 ∨
        (TrialBalanceLine.mk acctA 0 0).credit = 0)) := by
  have hmem : (TrialBalanceLine.mk acctA 0 0) ∈
      (buildReports [] [acctA] "2024-01-01" "2024-12-31").trialBalance.lines := by
    simp [buildReports, filterByDateRange, computeAccountBalances, mapGet, acctA]
  exact ⟨hmem,
    trialBalance_line_signs [] [acctA] "2024-01-01" "2024-12-31" _ hmem⟩

/-- C6: per line, `base = quantity*unitPrice`,
`discountAmount = base*discount/100`, `taxable = base - discountAmount`,
`taxAmount = taxable*taxRate/100`, `lineTotal = taxable + taxAmount`; the
invoice aggregates are the sums of the per-line taxable / discount / tax
amounts over the included lines and `total = subtotal + taxTotal`; and the
2 × 50 with 10% discount and 18% tax example evaluates to 100 / 10 / 90 /
16.2 / 106.2, two such lines summing to 180 / 20 / 32.4 / 212.4. -/
theorem invoice_totals_spec :
    (∀ quantity rate discount taxRate : ℚ,
      calculateLineTotal quantity rate discount taxRate =
        (quantity * rate - quantity * rate * (discount / 100)) +
          (quantity * rate - quantity * rate * (discount / 100)) * (taxRate / 100)) ∧
    (∀ (lines : List DraftInvoiceLine) (items : List InventoryItem),
      (computeTotals lines items).subtotal =
        ((lines.filter (fun l => l.quantity ≠ 0)).map
          (fun l => lineTaxable l items)).sum ∧
      (computeTotals lines items).discountTotal =
        ((lines.filter (fun l => l.quantity ≠ 0)).map
          (fun l => lineDiscountAmount l items)).sum ∧
      (computeTotals lines items).taxTotal =
        ((lines.filter (fun l => l.quantity ≠ 0)).map
          (fun l => lineTaxAmount l items)).sum ∧
      (computeTotals lines items).total =
        (computeTotals lines items).subtotal + (computeTotals lines items).taxTotal) ∧
    lineBase invLine [] = 100 ∧
    lineDiscountAmount invLine [] = 10 ∧
    lineTaxable invLine [] = 90 ∧
    lineTaxAmount invLine [] = 16.2 ∧
    calculateLineTotal 2 50 10 18 = 106.2 ∧
    computeTotals [invLine, invLine] [] =
      { subtotal := 180, discountTotal := 20, taxTotal := 32.4, total := 212.4 } := by
  refine ⟨fun q r d t => rfl, fun lines items => ?_, ?_, ?_, ?_, ?_, ?_, ?_⟩
  · rw [computeTotals_eq]
    exact ⟨rfl, rfl, rfl, rfl⟩
  · norm_num [lineBase, lineRate, invLine]
  · norm_num [lineDiscountAmount, lineBase, lineRate, invLine]
  · norm_num [lineTaxable, lineDiscountAmount, lineBase, lineRate, invLine]
  · norm_num [lineTaxAmount, lineTaxable, lineDiscountAmount, lineBase, lineRate, invLine]
  · norm_num [calculateLineTotal]
  · norm_num [computeTotals, computeTotalsStep, lineRate, invLine, InvoiceTotals.mk.injEq]

/-! ### Stability of the date sort -/

theorem filter_map_comm {α β : Type} (f : α → β) (p : β → Bool) :
    ∀ l : List α, (l.map f).filter p = (l.filter (fun x => p (f x))).map f := by
  intro l
  induction l with
  | nil => rfl
  | cons x xs ih =>
    by_cases h : p (f x) = true
    · simp [List.filter_cons, h, ih]
    · simp [List.filter_cons, h, ih]

theorem filter_date_insertByDate (e : JournalEntry) (d : String) :
    ∀ l : List JournalEntry,
      (insertByDate e l).filter (fun x => x.date = d) =
        (e :: l).filter (fun x => x.date = d) := by
  intro l
  induction l with
  | nil => rfl
  | cons f fs ih =>
    simp only [insertByDate]
    by_cases h : dateLe e.date f.date = true
    · rw [if_pos h]
    · rw [if_neg h]
      by_cases he : e.date = d
      · by_cases hf : f.date = d
        · exact absurd (show dateLe e.date f.date = true by
            rw [he, hf]
            exact dateLe_refl d) h
        · simp [List.filter_cons, he, hf, ih]
      · by_cases hf : f.date = d
        · simp [List.filter_cons, he, hf, ih]
        · simp [List.filter_cons, he, hf, ih]

theorem filter_date_sortEntriesByDate (d : String) :
    ∀ es : List JournalEntry,
      (sortEntriesByDate es).filter (fun x => x.date = d) =
        es.filter (fun x => x.date = d) := by
  intro es
  induction es with
  | nil => rfl
  | cons e es ih =>
    simp only [sortEntriesByDate]
    rw [filter_date_insertByDate e d (sortEntriesByDate es)]
    simp only [List.filter_cons, ih]

theorem matchedLines_filter_date (acct : Account) (d : String) :
    ∀ es : List JournalEntry,
      (matchedLines acct es).filter (fun p => p.1.date = d) =
        matchedLines acct (es.filter (fun e => e.date = d)) := by
  intro es
  induction es with
  | nil => rfl
  | cons e es ih =>
    rw [matchedLines_cons, List.filter_append, ih]
    by_cases he : e.date = d
    · have hblock : ((e.lines.filter (fun l => l.accountId = acct.id)).map
          (fun l => (e, l))).filter (fun p => p.1.date = d) =
          (e.lines.filter (fun l => l.accountId = acct.id)).map (fun l => (e, l)) := by
        apply List.filter_eq_self.mpr
        intro p hp
        obtain ⟨l, _, hl⟩ := List.mem_map.mp hp
        rw [← hl]
        simpa using he
      rw [hblock]
      have hfcons : (e :: es).filter (fun x => x.date = d) =
          e :: es.filter (fun x => x.date = d) := by
        simp [List.filter_cons, he]
      rw [hfcons, matchedLines_cons]
    · have hblock : ((e.lines.filter (fun l => l.accountId = acct.id)).map
          (fun l => (e, l))).filter (fun p => p.1.date = d) = [] := by
        apply List.filter_eq_nil_iff.mpr
        intro p hp
        obtain ⟨l, _, hl⟩ := List.mem_map.mp hp
        rw [← hl]
        simpa using he
      rw [hblock]
      have hfcons : (e :: es).filter (fun x => x.date = d) =
          es.filter (fun x => x.date = d) := by
        simp [List.filter_cons, he]
      rw [hfcons]
      rfl

/-- C4: `buildLedgerEntries` returns exactly the account's lines from the
date-filtered entries — as a list permutation of their document-order list,
with document order preserved within each date (stability of the sort) —
sorted ascending by date (lexicographic string compare), every row belonging
to the requested account, with running balance starting at 0 and each row's
balance equal to the previous balance plus `debit - credit`; the three-entry
(100,0), (0,40), (0,10) example produces running balances 100, 60, 50. -/
theorem ledger_spec :
    (∀ (entries : List JournalEntry) (account : Account) (fromDate toDate : String),
      List.Perm
        ((buildLedgerEntries entries account fromDate toDate).map
          (fun r => (r.date, r.debit, r.credit)))
        ((matchedLines account (filterByDateRange entries fromDate toDate)).map
          (fun p => (p.1.date, p.2.debit, p.2.credit))) ∧
      (∀ r ∈ buildLedgerEntries entries account fromDate toDate,
        r.accountId = account.id) ∧
      (buildLedgerEntries entries account fromDate toDate).Pairwise
        (fun r s => dateLe r.date s.date = true) ∧
      (∀ d : String,
        ((buildLedgerEntries entries account fromDate toDate).filter
            (fun r => r.date = d)).map (fun r => (r.date, r.debit, r.credit)) =
          ((matchedLines account (filterByDateRange entries fromDate toDate)).filter
            (fun p => p.1.date = d)).map (fun p => (p.1.date, p.2.debit, p.2.credit))) ∧
      (∀ r, (buildLedgerEntries entries account fromDate toDate).head? = some r →
        r.balance = r.debit - r.credit) ∧
      List.Chain' (fun r s => s.balance = r.balance + s.debit - s.credit)
        (buildLedgerEntries entries account fromDate toDate)) ∧
    (buildLedgerEntries [entryD1, entryD2, entryD3] acctA
      "2024-01-01" "2024-12-31").map (fun r => r.balance) = [100, 60, 50] := by
  constructor
  · intro entries account fromDate toDate
    refine ⟨?_, ?_, ?_, ?_, ?_, ?_⟩
    · show List.Perm ((ledgerRows account 0 (matchedLines account
        (sortEntriesByDate (filterByDateRange entries fromDate toDate)))).map _) _
      rw [ledgerRows_map_dc]
      exact (matchedLines_perm account (sortEntriesByDate_perm _)).map _
    · intro r hr
      exact ledgerRows_accountId account _ 0 r hr
    · have hml := matchedLines_pairwise account _ (sortEntriesByDate_pairwise
        (filterByDateRange entries fromDate toDate))
      have hmap : ((matchedLines account
          (sortEntriesByDate (filterByDateRange entries fromDate toDate))).map
          (fun p => (p.1.date, p.2.debit, p.2.credit))).Pairwise
          (fun x y => dateLe x.1 y.1 = true) := by
        rw [List.pairwise_map]
        exact hml
      have hledger : ((buildLedgerEntries entries account fromDate toDate).map
          (fun r => (r.date, r.debit, r.credit))).Pairwise
          (fun x y => dateLe x.1 y.1 = true) := by
        show ((ledgerRows account 0 (matchedLines account
          (sortEntriesByDate (filterByDateRange entries fromDate toDate)))).map
          (fun r => (r.date, r.debit, r.credit))).Pairwise _
        rw [ledgerRows_map_dc]
        exact hmap
      rw [List.pairwise_map] at hledger
      exact hledger
    · intro d
      have hs : ((buildLedgerEntries entries account fromDate toDate).filter
          (fun r => r.date = d)).map (fun r => (r.date, r.debit, r.credit)) =
          ((buildLedgerEntries entries account fromDate toDate).map
            (fun r => (r.date, r.debit, r.credit))).filter (fun x => x.1 = d) := by
        rw [filter_map_comm]
      rw [hs]
      have hl : ((buildLedgerEntries entries account fromDate toDate).map
          (fun r => (r.date, r.debit, r.credit))) =
          ((matchedLines account (sortEntriesByDate
            (filterByDateRange entries fromDate toDate))).map
            (fun p => (p.1.date, p.2.debit, p.2.credit))) := by
        show ((ledgerRows account 0 _).map _) = _
        rw [ledgerRows_map_dc]
      rw [hl, filter_map_comm, matchedLines_filter_date,
        filter_date_sortEntriesByDate, ← matchedLines_filter_date]
    · intro r hr
      have hb := ledgerRows_head?_balance account (matchedLines account
        (sortEntriesByDate (filterByDateRange entries fromDate toDate))) 0 r hr
      rw [hb, zero_add]
    · exact ledgerRows_chain account _ 0
  · simp +decide [buildLedgerEntries, filterByDateRange, sortEntriesByDate,
      insertByDate, matchedLines, ledgerRows, entryD1, entryD2, entryD3, acctA]
    norm_num

/-- C4 witness: the first row of the three-entry example carries balance
100 = 100 - 0, i.e. the head row's balance is its own debit minus credit. -/
theorem ledger_spec_witness :
    (LedgerEntry.mk "A" "Account A" "2024-01-02" none "J1" 100 0 100).balance =
      (LedgerEntry.mk "A" "Account A" "2024-01-02" none "J1" 100 0 100).debit -
        (LedgerEntry.mk "A" "Account A" "2024-01-02" none "J1" 100 0 100).credit :=
  ((ledger_spec.1 [entryD1, entryD2, entryD3] acctA "2024-01-01" "2024-12-31").2.2.2.2.1)
    (LedgerEntry.mk "A" "Account A" "2024-01-02" none "J1" 100 0 100)
    (by
      simp +decide [buildLedgerEntries, filterByDateRange, sortEntriesByDate,
        insertByDate, matchedLines, ledgerRows, entryD1, entryD2, entryD3, acctA])

/-! ### Permutation invariance of the aggregated balance -/

theorem occursIn_perm {a : String} {es fs : List JournalEntry}
    (h : List.Perm es fs) (ho : occursIn a es) : occursIn a fs := by
  obtain ⟨e, he, l, hl, hacc⟩ := ho
  exact ⟨e, h.mem_iff.mp he, l, hl, hacc⟩

theorem accountDelta_perm (a : String) {es fs : List JournalEntry}
    (h : List.Perm es fs) : accountDelta a es = accountDelta a fs :=
  (h.map (entryDelta a)).sum_eq

/-- C9: whenever the per-account ledger view is non-empty, the balance of its
last row equals the balance `computeAccountBalances` assigns to that account
over the same date-filtered entries: the running-balance view and the balance
aggregator agree on the final balance. -/
theorem ledger_final_balance_spec (entries : List JournalEntry) (account : Account)
    (fromDate toDate : String)
    (h : buildLedgerEntries entries account fromDate toDate ≠ []) :
    ((buildLedgerEntries entries account fromDate toDate).getLast?).map
        (fun r => r.balance) =
      mapGet (computeAccountBalances (filterByDateRange entries fromDate toDate))
        account.id := by
  have hps : matchedLines account
      (sortEntriesByDate (filterByDateRange entries fromDate toDate)) ≠ [] := by
    intro hx
    apply h
    show ledgerRows account 0 (matchedLines account
      (sortEntriesByDate (filterByDateRange entries fromDate toDate))) = []
    rw [hx]
    rfl
  have hlast := ledgerRows_getLast?_balance account (matchedLines account
    (sortEntriesByDate (filterByDateRange entries fromDate toDate))) 0 hps
  have hocc : occursIn account.id (filterByDateRange entries fromDate toDate) :=
    occursIn_perm (sortEntriesByDate_perm _) (occursIn_of_matchedLines_ne_nil hps)
  have hsum : ((matchedLines account (sortEntriesByDate
      (filterByDateRange entries fromDate toDate))).map
      (fun p => lineDelta p.2)).sum =
      accountDelta account.id (filterByDateRange entries fromDate toDate) := by
    rw [matchedLines_sum]
    exact accountDelta_perm account.id (sortEntriesByDate_perm _)
  show ((ledgerRows account 0 (matchedLines account
    (sortEntriesByDate (filterByDateRange entries fromDate toDate)))).getLast?).map
      (fun r => r.balance) = _
  rw [hlast, computeAccountBalances_get, if_pos hocc, hsum, zero_add]

/-- C9 witness: on the three-entry example the last ledger balance (50) equals
the aggregator's balance for account A over the same date range. -/
theorem ledger_final_balance_spec_witness :
    ((buildLedgerEntries [entryD1, entryD2, entryD3] acctA
        "2024-01-01" "2024-12-31").getLast?).map (fun r => r.balance) =
      mapGet (computeAccountBalances (filterByDateRange [entryD1, entryD2, entryD3]
        "2024-01-01" "2024-12-31")) acctA.id :=
  ledger_final_balance_spec [entryD1, entryD2, entryD3] acctA
    "2024-01-01" "2024-12-31"
    (by
      simp +decide [buildLedgerEntries, filterByDateRange, sortEntriesByDate,
        insertByDate, matchedLines, ledgerRows, entryD1, entryD2, entryD3, acctA])

/-! ### Orphaned account references -/

theorem filterByDateRange_stripOrphanLines (entries : List JournalEntry)
    (accounts : List Account) (fromDate toDate : String) :
    filterByDateRange (stripOrphanLines entries accounts) fromDate toDate =
      stripOrphanLines (filterByDateRange entries fromDate toDate) accounts := by
  simp only [stripOrphanLines, filterByDateRange, filter_map_comm]

theorem accountDelta_stripOrphanLines (a : String) (es : List JournalEntry)
    (accounts : List Account) (ha : a ∈ accounts.map Account.id) :
    accountDelta a (stripOrphanLines es accounts) = accountDelta a es := by
  unfold accountDelta stripOrphanLines
  rw [List.map_map]
  apply congrArg
  apply List.map_congr_left
  intro e _
  simp only [Function.comp_apply, entryDelta]
  apply congrArg
  apply congrArg
  rw [List.filter_filter]
  apply List.filter_congr
  intro l _
  by_cases hl : l.accountId = a
  · simp [hl, ha]
  · simp [hl]

theorem buildReports_congr (es1 es2 : List JournalEntry) (accounts : List Account)
    (fromDate toDate : String)
    (h : ∀ a ∈ accounts,
      accountDelta a.id (filterByDateRange es1 fromDate toDate) =
        accountDelta a.id (filterByDateRange es2 fromDate toDate)) :
    buildReports es1 accounts fromDate toDate =
      buildReports es2 accounts fromDate toDate := by
  have hget : ∀ a ∈ accounts,
      (mapGet (computeAccountBalances (filterByDateRange es1 fromDate toDate))
        a.id).getD 0 =
      (mapGet (computeAccountBalances (filterByDateRange es2 fromDate toDate))
        a.id).getD 0 := by
    intro a ha
    rw [computeAccountBalances_getD, computeAccountBalances_getD]
    exact h a ha
  have hrev : (accounts.filter (fun a => a.type = AccountType.Revenue)).map
      (fun account => ReportLine.mk account
        (-((mapGet (computeAccountBalances (filterByDateRange es1 fromDate toDate))
          account.id).getD 0))) =
      (accounts.filter (fun a => a.type = AccountType.Revenue)).map
      (fun account => ReportLine.mk account
        (-((mapGet (computeAccountBalances (filterByDateRange es2 fromDate toDate))
          account.id).getD 0))) := by
    apply List.map_congr_left
    intro a ha
    rw [hget a (List.mem_of_mem_filter ha)]
  have hexp : (accounts.filter (fun a => a.type = AccountType.Expense)).map
      (fun account => ReportLine.mk account
        ((mapGet (computeAccountBalances (filterByDateRange es1 fromDate toDate))
          account.id).getD 0)) =
      (accounts.filter (fun a => a.type = AccountType.Expense)).map
      (fun account => ReportLine.mk account
        ((mapGet (computeAccountBalances (filterByDateRange es2 fromDate toDate))
          account.id).getD 0)) := by
    apply List.map_congr_left
    intro a ha
    rw [hget a (List.mem_of_mem_filter ha)]
  have hass : (accounts.filter (fun a => a.type = AccountType.Asset)).map
      (fun account => ReportLine.mk account
        ((mapGet (computeAccountBalances (filterByDateRange es1 fromDate toDate))
          account.id).getD 0)) =
      (accounts.filter (fun a => a.type = AccountType.Asset)).map
      (fun account => ReportLine.mk account
        ((mapGet (computeAccountBalances (filterByDateRange es2 fromDate toDate))
          account.id).getD 0)) := by
    apply List.map_congr_left
    intro a ha
    rw [hget a (List.mem_of_mem_filter ha)]
  have hliab : (accounts.filter (fun a => a.type = AccountType.Liability)).map
      (fun account => ReportLine.mk account
        (-((mapGet (computeAccountBalances (filterByDateRange es1 fromDate toDate))
          account.id).getD 0))) =
      (accounts.filter (fun a => a.type = AccountType.Liability)).map
      (fun account => ReportLine.mk account
        (-((mapGet (computeAccountBalances (filterByDateRange es2 fromDate toDate))
          account.id).getD 0))) := by
    apply List.map_congr_left
    intro a ha
    rw [hget a (List.mem_of_mem_filter ha)]
  have heq : (accounts.filter (fun a => a.type = AccountType.Equity)).map
      (fun account => ReportLine.mk account
        (-((mapGet (computeAccountBalances (filterByDateRange es1 fromDate toDate))
          account.id).getD 0))) =
      (accounts.filter (fun a => a.type = AccountType.Equity)).map
      (fun account => ReportLine.mk account
        (-((mapGet (computeAccountBalances (filterByDateRange es2 fromDate toDate))
          account.id).getD 0))) := by
    apply List.map_congr_left
    intro a ha
    rw [hget a (List.mem_of_mem_filter ha)]
  have htb : accounts.map (fun account =>
      TrialBalanceLine.mk account
        (if (mapGet (computeAccountBalances (filterByDateRange es1 fromDate toDate))
            account.id).getD 0 > 0 then
          (mapGet (computeAccountBalances (filterByDateRange es1 fromDate toDate))
            account.id).getD 0 else 0)
        (if (mapGet (computeAccountBalances (filterByDateRange es1 fromDate toDate))
            account.id).getD 0 < 0 then
          -((mapGet (computeAccountBalances (filterByDateRange es1 fromDate toDate))
            account.id).getD 0) else 0)) =
      accounts.map (fun account =>
      TrialBalanceLine.mk account
        (if (mapGet (computeAccountBalances (filterByDateRange es2 fromDate toDate))
            account.id).getD 0 > 0 then
          (mapGet (computeAccountBalances (filterByDateRange es2 fromDate toDate))
            account.id).getD 0 else 0)
        (if (mapGet (computeAccountBalances (filterByDateRange es2 fromDate toDate))
            account.id).getD 0 < 0 then
          -((mapGet (computeAccountBalances (filterByDateRange es2 fromDate toDate))
            account.id).getD 0) else 0)) := by
    apply List.map_congr_left
    intro a ha
    rw [hget a ha]
  simp only [buildReports]
  rw [hrev, hexp, hass, hliab, heq, htb]

/-- C7: lines whose accountId is absent from the account list never break
report derivation (the embedding is a total function); the balance aggregator
still records their amount under the original accountId, but the report
payload is unchanged when those lines are dropped — no P&L, Balance Sheet or
Trial Balance line is produced for the orphan id, so its contribution is
absent from every report total — while the entry list itself, which raw views
iterate directly, still carries the lines. -/
theorem orphan_lines_spec (entries : List JournalEntry) (accounts : List Account)
    (fromDate toDate : String) :
    buildReports entries accounts fromDate toDate =
      buildReports (stripOrphanLines entries accounts) accounts fromDate toDate ∧
    (∀ a : String, occursIn a (filterByDateRange entries fromDate toDate) →
      mapGet (computeAccountBalances (filterByDateRange entries fromDate toDate)) a =
        some (accountDelta a (filterByDateRange entries fromDate toDate))) ∧
    (∀ a : String, a ∉ accounts.map Account.id →
      ∀ line ∈ (buildReports entries accounts fromDate toDate).trialBalance.lines,
        line.account.id ≠ a) := by
  refine ⟨?_, ?_, ?_⟩
  · apply buildReports_congr
    intro a ha
    rw [filterByDateRange_stripOrphanLines, accountDelta_stripOrphanLines a.id _
      accounts (List.mem_map_of_mem Account.id ha)]
  · intro a hocc
    rw [computeAccountBalances_get, if_pos hocc]
  · intro a hna line hline
    rw [buildReports_trialBalance_lines] at hline
    obtain ⟨b, hb, hline⟩ := List.mem_map.mp hline
    rw [← hline]
    intro heq
    exact hna (List.mem_map.mpr ⟨b, hb, heq⟩)

/-- C7 witness: entry `entryD1` references account id "A", which is not in
the account list `[acctSales]`; the aggregator still maps "A" to its balance,
and no Trial Balance line carries id "A". -/
theorem orphan_lines_spec_witness :
    mapGet (computeAccountBalances (filterByDateRange [entryD1]
        "2024-01-01" "2024-12-31")) "A" =
      some (accountDelta "A" (filterByDateRange [entryD1]
        "2024-01-01" "2024-12-31")) ∧
    ∀ line ∈ (buildReports [entryD1] [acctSales]
        "2024-01-01" "2024-12-31").trialBalance.lines,
      line.account.id ≠ "A" :=
  ⟨((orphan_lines_spec [entryD1] [acctSales] "2024-01-01" "2024-12-31").2.1) "A"
      (by decide),
   ((orphan_lines_spec [entryD1] [acctSales] "2024-01-01" "2024-12-31").2.2) "A"
      (by decide)⟩
